import Mathlib

/-!
Verification development for the pepper agent runtime.

This file gives a shallow embedding, in Lean, of the core orchestration code
of the repository and proves properties of it:

* the canonical event model (`src/pepper/llm_client/model.py`),
* the conversation-memory `StateTracker` with threshold-triggered compaction
  and periodic store (`src/pepper/services/state_tracker.py`),
* the provider-wire rendering of `WorkerStateTracker`,
* the tool dispatch layer (`src/tool/manager.py`),
* the model-to-provider resolution (`src/pepper/llm_client/llm_client.py`),
* the bounded worker loop (`src/pepper/agent/worker.py`),
* the scheduler step and its batch-draining (`src/pepper/agent/scheduler.py`).

External collaborators (the context store, the MCP transport, the LLM
providers, JSON parsing) are modelled as explicit parameters; wall-clock
timestamps are threaded as explicit natural-number arguments.
-/

namespace Pepper

/-! ## Canonical event model (`src/pepper/llm_client/model.py`) -/

/-- `ToolCall` from `model.py`: `id`, `name`, `arguments` (an opaque
serialized-structured-data string). -/
structure ToolCall where
  id : String
  name : String
  arguments : String
deriving DecidableEq, Repr

/-- The payload of an `AssistantMessage` from `model.py`: optional content,
optional list of tool calls, optional finish reason. -/
structure AssistantMsg where
  content : Option String := none
  toolCalls : Option (List ToolCall) := none
  finishReason : Option String := none
deriving DecidableEq, Repr

/-- The canonical event sum from `model.py`.  `GenericEvent.content` is `Any`
in the source; every construction in the repository passes a string there, and
`ToolCallResult.result` is likewise always constructed from a string. -/
inductive Event where
  | userMessage (content : String)
  | assistant (msg : AssistantMsg)
  | toolCallEv (tc : ToolCall)
  | toolCallResult (id : String) (name : Option String) (result : String)
  | genericEvent (etype : Option String) (content : String)
  | sendToUser (content : String)
  | waitEv (content : String)
deriving DecidableEq, Repr

/-- `event.__class__.__name__` for each canonical event variant. -/
def Event.className : Event → String
  | .userMessage _ => "UserMessage"
  | .assistant _ => "AssistantMessage"
  | .toolCallEv _ => "ToolCall"
  | .toolCallResult _ _ _ => "ToolCallResult"
  | .genericEvent _ _ => "GenericEvent"
  | .sendToUser _ => "SendToUser"
  | .waitEv _ => "Wait"

/-! ## StateTracker (`src/pepper/services/state_tracker.py`) -/

/-- One `context_store.store(...)` call issued by `StateTracker.store_events`:
the record id, the stored `AgentState` payload, the namespace and the
`context_type`. -/
structure StoreRecord where
  contextId : String
  events : List Event
  summary : Option String
  nspace : String
  contextType : String
deriving DecidableEq, Repr

/-- The mutable fields of a `StateTracker` instance, plus `storeLog`, the
sequence of records it has written to the external context store. -/
structure TrackerState where
  nspace : Option String
  events : List Event
  summary : Option String
  recentMessages : List String
  autoStoreCounter : Nat
  storeLog : List StoreRecord
deriving DecidableEq, Repr

/-- `len_limit` set in `StateTracker.__init__`. -/
def lenLimit : Nat := 100

/-- `summarize_last_n_events` set in `StateTracker.__init__`. -/
def summarizeLastN : Nat := 60

/-- `auto_store_every_n_events` set in `StateTracker.__init__`. -/
def autoStoreEveryN : Nat := 20

/-- A fresh `StateTracker(context_store, namespace)` with no retrieved
history: empty event log, no summary, zeroed auto-store counter. -/
def initTracker (ns : Option String) : TrackerState :=
  { nspace := ns, events := [], summary := none, recentMessages := [],
    autoStoreCounter := 0, storeLog := [] }

/-- `StateTracker.store_events` at wall-clock time `t`: a no-op when no
namespace is configured, otherwise stores the current `AgentState` under
`context_id = f"{namespace}_{time.time()}"`. -/
def storeEvents (t : Nat) (s : TrackerState) : TrackerState :=
  match s.nspace with
  | none => s
  | some ns =>
      { s with storeLog := s.storeLog ++
          [{ contextId := ns ++ "_" ++ toString t, events := s.events,
             summary := s.summary, nspace := ns,
             contextType := "AgentState" }] }

/-- `StateTracker.add_event` at wall-clock time `t`.  `summ` models
`Summarizer.summarize_conversation` (an external LLM call): it receives the
window of events and the existing summary and returns the new summary text.
Mirrors the source order: append; bump the auto-store counter and flush when
it reaches the threshold; track recent `SendToUser` contents (last five);
compact once `len(events) > len_limit` by summarizing the oldest
`summarize_last_n_events` events and dropping them. -/
def addEvent (summ : List Event → Option String → String) (t : Nat)
    (s : TrackerState) (e : Event) : TrackerState :=
  let s1 : TrackerState :=
    { s with events := s.events ++ [e], autoStoreCounter := s.autoStoreCounter + 1 }
  let s2 : TrackerState :=
    if s1.autoStoreCounter ≥ autoStoreEveryN then
      { storeEvents t s1 with autoStoreCounter := 0 }
    else s1
  let s3 : TrackerState :=
    match e with
    | .sendToUser c =>
        let rm := s2.recentMessages ++ [c]
        { s2 with recentMessages := if rm.length > 5 then rm.drop 1 else rm }
    | _ => s2
  if s3.events.length > lenLimit then
    { s3 with
      summary := some (summ (s3.events.take summarizeLastN) s3.summary),
      events := s3.events.drop summarizeLastN }
  else s3

theorem storeEvents_events (t : Nat) (s : TrackerState) :
    (storeEvents t s).events = s.events := by
  unfold storeEvents; cases s.nspace <;> rfl

theorem storeEvents_summary (t : Nat) (s : TrackerState) :
    (storeEvents t s).summary = s.summary := by
  unfold storeEvents; cases s.nspace <;> rfl

/-- The event log after `add_event` is either the plain append (no
compaction) or the append with the oldest `summarizeLastN` events dropped. -/
theorem addEvent_events (summ : List Event → Option String → String)
    (t : Nat) (s : TrackerState) (e : Event) :
    (addEvent summ t s e).events =
      (if (s.events ++ [e]).length > lenLimit then
        (s.events ++ [e]).drop summarizeLastN
       else s.events ++ [e]) := by
  unfold addEvent
  cases hns : s.nspace <;> cases e <;>
    simp only [storeEvents, hns] <;> split <;> split <;> rfl

/-- `add_event` preserves the retention bound `len(events) ≤ len_limit`. -/
theorem addEvent_preserves_lenLimit
    (summ : List Event → Option String → String) (t : Nat)
    (s : TrackerState) (e : Event) (h : s.events.length ≤ lenLimit) :
    (addEvent summ t s e).events.length ≤ lenLimit := by
  rw [addEvent_events]
  split <;>
    (simp only [List.length_drop, List.length_append, List.length_cons,
        List.length_nil, lenLimit, summarizeLastN] at *) <;>
    omega

/-! ## Provider-wire rendering (`WorkerStateTracker._to_openai_format`) -/

/-- The nested function-call dict produced for a `ToolCall`:
`{"id": ..., "type": "function", "function": {"name": ..., "arguments": ...}}`. -/
structure WireFnCall where
  id : String
  fnType : String
  fname : String
  arguments : String
deriving DecidableEq, Repr

/-- The wire-format dict of a `ToolCall`. -/
def fnCallWire (tc : ToolCall) : WireFnCall :=
  { id := tc.id, fnType := "function", fname := tc.name, arguments := tc.arguments }

/-- The provider-wire message dicts produced by `_to_openai_format`. -/
inductive WireMsg where
  | assistantW (content : Option String) (toolCalls : Option (List WireFnCall))
  | userW (content : String)
  | toolW (toolCallId : String) (content : String)
  | funcW (fc : WireFnCall)
deriving DecidableEq, Repr

/-- `WorkerStateTracker._to_openai_format`: renders the four conversational
event kinds and raises `ValueError(f"Unknown event type: ...")` on any other
kind.  The `tool_calls` field is only attached when the list is truthy
(present and non-empty). -/
def toOpenaiFormat : Event → Except String WireMsg
  | .assistant m =>
      .ok (.assistantW m.content
        (match m.toolCalls with
         | some l => if l.isEmpty then none else some (l.map fnCallWire)
         | none => none))
  | .userMessage c => .ok (.userW c)
  | .toolCallEv tc => .ok (.funcW (fnCallWire tc))
  | .toolCallResult i _ r => .ok (.toolW i r)
  | e => .error ("Unknown event type: " ++ e.className)

/-- The `WorkerStateTracker.messages` property: renders every event in order;
the first unrenderable event raises. -/
def messagesOf : List Event → Except String (List WireMsg)
  | [] => .ok []
  | e :: rest =>
      match toOpenaiFormat e with
      | .error m => .error m
      | .ok w =>
          match messagesOf rest with
          | .error m => .error m
          | .ok ws => .ok (w :: ws)

/-- Whether `_to_openai_format` handles this event kind. -/
def Event.wireOk : Event → Bool
  | .genericEvent _ _ => false
  | .sendToUser _ => false
  | .waitEv _ => false
  | _ => true

/-- Success test for an `Except` computation. -/
def exceptOk : Except String α → Bool
  | .ok _ => true
  | .error _ => false

theorem messagesOf_isOk_iff (evs : List Event) :
    exceptOk (messagesOf evs) = true ↔ ∀ e ∈ evs, e.wireOk = true := by
  induction evs with
  | nil => simp [messagesOf, exceptOk]
  | cons e rest ih =>
      cases e <;>
        simp_all [messagesOf, toOpenaiFormat, Event.wireOk, exceptOk] <;>
        cases h : messagesOf rest <;> simp_all [exceptOk]

theorem messagesOf_error (evs : List Event) (m : String)
    (h : messagesOf evs = .error m) :
    ∃ e, e ∈ evs ∧ e.wireOk = false ∧ m = "Unknown event type: " ++ e.className := by
  induction evs with
  | nil => simp [messagesOf] at h
  | cons e rest ih =>
      cases e <;> simp_all [messagesOf, toOpenaiFormat, Event.wireOk] <;>
        (try (cases hr : messagesOf rest <;> simp_all))

theorem messagesOf_ok_map (evs : List Event)
    (h : ∀ e ∈ evs, e.wireOk = true) :
    ∃ ws, messagesOf evs = .ok ws := by
  have := (messagesOf_isOk_iff evs).mpr h
  cases hm : messagesOf evs
  · rw [hm] at this; simp [exceptOk] at this
  · exact ⟨_, rfl⟩

/-- The summary after `add_event` is the fold of the oldest window into the
prior summary when compaction triggers, and unchanged otherwise. -/
theorem addEvent_summary (summ : List Event → Option String → String)
    (t : Nat) (s : TrackerState) (e : Event) :
    (addEvent summ t s e).summary =
      (if (s.events ++ [e]).length > lenLimit then
        some (summ ((s.events ++ [e]).take summarizeLastN) s.summary)
       else s.summary) := by
  unfold addEvent
  cases hns : s.nspace <;> cases e <;>
    simp only [storeEvents, hns] <;> split <;> split <;> rfl

theorem foldl_addEvent_lenLimit (summ : List Event → Option String → String)
    (l : List (Nat × Event)) (s : TrackerState)
    (h : s.events.length ≤ lenLimit) :
    (l.foldl (fun st p => addEvent summ p.1 st p.2) s).events.length ≤ lenLimit := by
  induction l generalizing s with
  | nil => exact h
  | cons p l ih => exact ih _ (addEvent_preserves_lenLimit summ p.1 s p.2 h)

/-- C1: starting from an empty `StateTracker`, every sequence of `add_event`
calls keeps `len(events) ≤ len_limit` on return; and whenever an append makes
the log exceed `len_limit`, that same call drops exactly the oldest
`summarize_last_n_events` events (keeping the remainder in order) and folds
them, together with the prior summary, into the new summary. -/
theorem state_tracker_retention_bound :
    (∀ (summ : List Event → Option String → String) (ns : Option String)
        (l : List (Nat × Event)),
        (l.foldl (fun st p => addEvent summ p.1 st p.2) (initTracker ns)).events.length
          ≤ lenLimit)
    ∧ (∀ (summ : List Event → Option String → String) (t : Nat)
        (s : TrackerState) (e : Event), s.events.length + 1 > lenLimit →
        (addEvent summ t s e).events = (s.events ++ [e]).drop summarizeLastN ∧
        (addEvent summ t s e).summary =
          some (summ ((s.events ++ [e]).take summarizeLastN) s.summary)) := by
  constructor
  · intro summ ns l
    exact foldl_addEvent_lenLimit summ l _ (by simp [initTracker])
  · intro summ t s e h
    have hlen : (s.events ++ [e]).length > lenLimit := by
      simp only [List.length_append, List.length_cons, List.length_nil]
      omega
    exact ⟨by rw [addEvent_events, if_pos hlen],
           by rw [addEvent_summary, if_pos hlen]⟩

/-- A tracker whose log is exactly at the retention limit. -/
def fullTracker : TrackerState :=
  { initTracker none with events := List.replicate lenLimit (Event.userMessage "x") }

theorem state_tracker_retention_bound_witness :
    fullTracker.events.length + 1 > lenLimit ∧
    (addEvent (fun _ _ => "S") 0 fullTracker (Event.userMessage "y")).events =
      (fullTracker.events ++ [Event.userMessage "y"]).drop summarizeLastN ∧
    (addEvent (fun _ _ => "S") 0 fullTracker (Event.userMessage "y")).summary =
      some ((fun _ _ => "S")
        ((fullTracker.events ++ [Event.userMessage "y"]).take summarizeLastN)
        fullTracker.summary) :=
  ⟨by simp [fullTracker, initTracker, lenLimit],
   state_tracker_retention_bound.2 (fun _ _ => "S") 0 fullTracker
     (Event.userMessage "y") (by simp [fullTracker, initTracker, lenLimit])⟩

/-- C6 counterexample: two consecutive `store_events` calls on the scheduler
tracker (wall-clock times 0 and 1) store under two distinct record
identifiers, refuting "every store_events call for the same namespace stores
under the same record identifier". -/
theorem store_events_same_id_counterexample :
    ((storeEvents 1 (storeEvents 0 (initTracker (some "memory-scheduler")))).storeLog.map
        (fun r => r.contextId)) = ["memory-scheduler_0", "memory-scheduler_1"]
    ∧ ("memory-scheduler_0" : String) ≠ "memory-scheduler_1" := by
  exact ⟨by rfl, by decide⟩

/-- C6 amended: `store_events` is a no-op when no namespace is configured;
otherwise each call stores one `AgentState` record under the fresh identifier
`f"{namespace}_{time.time()}"` (namespace plus the current wall-clock time),
appending a new record per call rather than overwriting a fixed id. -/
theorem store_events_record_per_call :
    ∀ (t : Nat) (s : TrackerState),
      (s.nspace = none → storeEvents t s = s) ∧
      (∀ ns, s.nspace = some ns →
        storeEvents t s =
          { s with storeLog := s.storeLog ++
              [{ contextId := ns ++ "_" ++ toString t, events := s.events,
                 summary := s.summary, nspace := ns,
                 contextType := "AgentState" }] }) := by
  intro t s
  constructor
  · intro h; unfold storeEvents; rw [h]
  · intro ns h; unfold storeEvents; rw [h]

theorem store_events_record_per_call_witness :
    storeEvents 0 (initTracker none) = initTracker none ∧
    storeEvents 5 (initTracker (some "memory-scheduler")) =
      { initTracker (some "memory-scheduler") with storeLog :=
          (initTracker (some "memory-scheduler")).storeLog ++
            [{ contextId := "memory-scheduler" ++ "_" ++ toString 5,
               events := (initTracker (some "memory-scheduler")).events,
               summary := (initTracker (some "memory-scheduler")).summary,
               nspace := "memory-scheduler",
               contextType := "AgentState" }] } :=
  ⟨(store_events_record_per_call 0 (initTracker none)).1 rfl,
   (store_events_record_per_call 5 (initTracker (some "memory-scheduler"))).2
     "memory-scheduler" rfl⟩

/-- C10: `WorkerStateTracker.messages` succeeds exactly when every event in
the log is a `UserMessage`, `AssistantMessage`, `ToolCall` or
`ToolCallResult`, and otherwise raises a `ValueError` naming the offending
event type. -/
theorem worker_messages_partial_rendering :
    ∀ (evs : List Event),
      (exceptOk (messagesOf evs) = true ↔ ∀ e ∈ evs, e.wireOk = true) ∧
      (∀ m, messagesOf evs = .error m →
        ∃ e, e ∈ evs ∧ e.wireOk = false ∧
          m = "Unknown event type: " ++ e.className) :=
  fun evs => ⟨messagesOf_isOk_iff evs, fun m h => messagesOf_error evs m h⟩

theorem worker_messages_partial_rendering_witness :
    messagesOf [Event.waitEv "w"] = .error "Unknown event type: Wait" ∧
    (∃ e, e ∈ [Event.waitEv "w"] ∧ e.wireOk = false ∧
      "Unknown event type: Wait" = "Unknown event type: " ++ e.className) :=
  ⟨by rfl,
   (worker_messages_partial_rendering [Event.waitEv "w"]).2
     "Unknown event type: Wait" (by rfl)⟩

/-! ## Tool dispatch layer (`src/tool/manager.py`)

`ToolManager.call` is wrapped by `with_timeout(900)`: `asyncio.wait_for`
raises `asyncio.TimeoutError` when the inner coroutine exceeds the budget,
and the inner `except Exception` does not catch the cancellation, so the
timeout surfaces as a raised exception.  The MCP round-trip is modelled by a
`behavior` parameter returning the call's duration (in seconds) together
with either the extracted result text or the message of the exception the
body would raise; JSON argument parsing is modelled by an abstract `parse`
into an abstract argument type with a distinguished empty value (the `{}`
fallback). -/

/-- The result of `json.loads(args_str or "{}")` with the `except`-fallback
to `{}`: empty string parses to the empty dict; an unparseable payload
degrades to the empty dict. -/
def parsedArgs {A : Type} (parse : String → Option A) (empty : A)
    (s : String) : A :=
  if s = "" then empty else (parse s).getD empty

/-- The dict returned by the body of `ToolManager.call`. -/
inductive CallDict where
  | okDict (serverName toolName result : String)
  | errDict (error : String)
deriving DecidableEq, Repr

/-- The body of `ToolManager.call` (inside the timeout wrapper): unknown
server names return an error dict; otherwise the MCP round-trip either
yields the result text or raises, and the `except Exception` turns the
raised exception into an error dict.  The first component is the wall-clock
duration of the body. -/
def callBody {A : Type} (serverNames : List String)
    (behavior : String → String → A → Nat × Except String String)
    (sn tn : String) (args : A) : Nat × CallDict :=
  if serverNames.contains sn then
    let r := behavior sn tn args
    (r.1, match r.2 with
          | .ok text => .okDict sn tn text
          | .error msg => .errDict msg)
  else (0, .errDict ("Unknown server '" ++ sn ++ "'"))

/-- `with_timeout` applied to `ToolManager.call`: if the body takes longer
than `timeout` seconds, `asyncio.wait_for` raises `TimeoutError` (the body's
`except Exception` does not catch the cancellation); otherwise the body's
dict is returned. -/
def callTimed {A : Type} (timeout : Nat) (serverNames : List String)
    (behavior : String → String → A → Nat × Except String String)
    (sn tn : String) (args : A) : Except String CallDict :=
  if (callBody serverNames behavior sn tn args).1 > timeout then
    .error "TimeoutError"
  else .ok (callBody serverNames behavior sn tn args).2

/-- `json.dumps` of the dict returned by `ToolManager.call`. -/
def dumpCallDict : CallDict → String
  | .okDict sn tn r =>
      "\x7b\"server_name\": \"" ++ sn ++ "\", \"tool_name\": \"" ++ tn ++
        "\", \"result\": \"" ++ r ++ "\"\x7d"
  | .errDict m => "\x7b\"error\": \"" ++ m ++ "\"\x7d"

/-- `json.dumps({"error": f"Unknown tool function: {fn_name}"})`. -/
def unknownToolPayload (fn : String) : String :=
  "\x7b\"error\": \"Unknown tool function: " ++ fn ++ "\"\x7d"

/-- The `ToolCallResult` object returned by `ToolManager.call_openai_tool`. -/
structure ToolCallResultR where
  id : String
  name : Option String
  result : String
deriving DecidableEq, Repr

/-- `ToolManager.call_openai_tool`, given the discovery-built dispatch table
(`{fn_name: (server_name, tool_name)}`, modelled as an association list):
parse `arguments` (degrading to the empty set), return an error-payload
result for unknown function names, otherwise invoke `self.call` under the
timeout and wrap its dict as the result string.  A raised `TimeoutError`
propagates (`Except.error`). -/
def callOpenaiTool {A : Type} (parse : String → Option A) (empty : A)
    (dispatch : List (String × String × String)) (serverNames : List String)
    (behavior : String → String → A → Nat × Except String String)
    (timeout : Nat) (tc : ToolCall) : Except String ToolCallResultR :=
  let args := parsedArgs parse empty tc.arguments
  match dispatch.find? (fun p => p.1 == tc.name) with
  | none => .ok ⟨tc.id, some tc.name, unknownToolPayload tc.name⟩
  | some p =>
      match callTimed timeout serverNames behavior p.2.1 p.2.2 args with
      | .error e => .error e
      | .ok d => .ok ⟨tc.id, some tc.name, dumpCallDict d⟩

/-- C2 counterexample: a registered tool whose provider call takes 901 s
against the default 900 s timeout makes `call_openai_tool` raise
(`asyncio.TimeoutError` propagates out of `asyncio.wait_for`) instead of
yielding an error-carrying `ToolCallResult`. -/
theorem tool_timeout_raises_counterexample :
    callOpenaiTool (fun _ => (none : Option Unit)) ()
        [("srv__tool", "srv", "tool")] ["srv"]
        (fun _ _ _ => (901, Except.ok "r")) 900
        { id := "id1", name := "srv__tool", arguments := "" } =
      Except.error "TimeoutError" := by
  rfl

/-- C2 amended: a registered tool call whose provider call exceeds the
timeout makes `call_openai_tool` raise the timeout error to its caller
(nothing catches the `TimeoutError` from `asyncio.wait_for`), rather than
returning a `ToolCallResult`; a provider call completing within the timeout
— including one that fails with an ordinary exception — yields a
`ToolCallResult` wrapping the provider's dict (result or error payload). -/
theorem tool_timeout_behavior {A : Type} (parse : String → Option A)
    (empty : A) (dispatch : List (String × String × String))
    (serverNames : List String)
    (behavior : String → String → A → Nat × Except String String)
    (timeout : Nat) (tc : ToolCall) (fn sn tn : String)
    (hfind : dispatch.find? (fun p => p.1 == tc.name) = some (fn, sn, tn)) :
    ((callBody serverNames behavior sn tn
        (parsedArgs parse empty tc.arguments)).1 > timeout →
      callOpenaiTool parse empty dispatch serverNames behavior timeout tc =
        Except.error "TimeoutError")
    ∧ ((callBody serverNames behavior sn tn
          (parsedArgs parse empty tc.arguments)).1 ≤ timeout →
      callOpenaiTool parse empty dispatch serverNames behavior timeout tc =
        Except.ok ⟨tc.id, some tc.name,
          dumpCallDict (callBody serverNames behavior sn tn
            (parsedArgs parse empty tc.arguments)).2⟩) := by
  constructor
  · intro hd
    unfold callOpenaiTool
    rw [hfind]
    simp only [callTimed, if_pos hd]
  · intro hd
    unfold callOpenaiTool
    rw [hfind]
    have : ¬ (callBody serverNames behavior sn tn
        (parsedArgs parse empty tc.arguments)).1 > timeout := by omega
    simp only [callTimed, if_neg this]

theorem tool_timeout_behavior_witness :
    callOpenaiTool (fun _ => (none : Option Unit)) ()
        [("srv__tool", "srv", "tool")] ["srv"]
        (fun _ _ _ => (901, Except.ok "r")) 900
        { id := "id1", name := "srv__tool", arguments := "" } =
      Except.error "TimeoutError" ∧
    callOpenaiTool (fun _ => (none : Option Unit)) ()
        [("srv__tool", "srv", "tool")] ["srv"]
        (fun _ _ _ => (3, Except.error "boom")) 900
        { id := "id2", name := "srv__tool", arguments := "" } =
      Except.ok ⟨"id2", some "srv__tool",
        dumpCallDict (callBody ["srv"]
          (fun _ _ _ => (3, Except.error "boom")) "srv" "tool"
          (parsedArgs (fun _ => (none : Option Unit)) () "")).2⟩ :=
  ⟨(tool_timeout_behavior (fun _ => (none : Option Unit)) ()
      [("srv__tool", "srv", "tool")] ["srv"]
      (fun _ _ _ => (901, Except.ok "r")) 900
      { id := "id1", name := "srv__tool", arguments := "" }
      "srv__tool" "srv" "tool" (by rfl)).1 (by decide),
   (tool_timeout_behavior (fun _ => (none : Option Unit)) ()
      [("srv__tool", "srv", "tool")] ["srv"]
      (fun _ _ _ => (3, Except.error "boom")) 900
      { id := "id2", name := "srv__tool", arguments := "" }
      "srv__tool" "srv" "tool" (by rfl)).2 (by decide)⟩

/-- C3: given a discovery-built dispatch table, a `ToolCall` whose name is
not a key yields — without raising — a `ToolCallResult` whose payload is the
deterministic unknown-tool error containing the attempted name; and a
`ToolCall` whose `arguments` string does not parse proceeds with the empty
argument set instead of failing. -/
theorem tool_dispatch_graceful {A : Type} (parse : String → Option A)
    (empty : A) (dispatch : List (String × String × String))
    (serverNames : List String)
    (behavior : String → String → A → Nat × Except String String)
    (timeout : Nat) (tc : ToolCall) :
    (dispatch.find? (fun p => p.1 == tc.name) = none →
      callOpenaiTool parse empty dispatch serverNames behavior timeout tc =
        Except.ok ⟨tc.id, some tc.name, unknownToolPayload tc.name⟩ ∧
      ∃ pre post, unknownToolPayload tc.name = pre ++ tc.name ++ post)
    ∧ (parse tc.arguments = none →
      parsedArgs parse empty tc.arguments = empty ∧
      (∀ fn sn tn,
        dispatch.find? (fun p => p.1 == tc.name) = some (fn, sn, tn) →
        callOpenaiTool parse empty dispatch serverNames behavior timeout tc =
          match callTimed timeout serverNames behavior sn tn empty with
          | .error e => .error e
          | .ok d => .ok ⟨tc.id, some tc.name, dumpCallDict d⟩)) := by
  constructor
  · intro hfind
    refine ⟨?_, "\x7b\"error\": \"Unknown tool function: ", "\"\x7d", rfl⟩
    unfold callOpenaiTool
    rw [hfind]
  · intro hparse
    have hargs : parsedArgs parse empty tc.arguments = empty := by
      unfold parsedArgs
      split
      · rfl
      · rw [hparse]; rfl
    refine ⟨hargs, ?_⟩
    intro fn sn tn hfind
    unfold callOpenaiTool
    rw [hfind, hargs]

theorem tool_dispatch_graceful_witness :
    callOpenaiTool (fun _ => (none : Option Unit)) () [] []
        (fun _ _ _ => (0, Except.ok "")) 900
        { id := "id9", name := "nope", arguments := "xyz" } =
      Except.ok ⟨"id9", some "nope", unknownToolPayload "nope"⟩ ∧
    ∃ pre post, unknownToolPayload "nope" = pre ++ "nope" ++ post :=
  (tool_dispatch_graceful (fun _ => (none : Option Unit)) () [] []
      (fun _ _ _ => (0, Except.ok "")) 900
      { id := "id9", name := "nope", arguments := "xyz" }).1 (by rfl)

/-! ## Model-to-provider resolution (`src/pepper/llm_client/llm_client.py`) -/

/-- The environment variables read by `get_provider_for_model`. -/
structure EnvConfig where
  llmProvider : Option String
  openaiApiKey : Option String
  bedrockApiKey : Option String
  awsApiKey : Option String
  anthropicApiKey : Option String
deriving DecidableEq, Repr

/-- Python truthiness of `os.environ.get(...)`: set and non-empty. -/
def truthy : Option String → Bool
  | some s => !s.isEmpty
  | none => false

/-- Python `str.lower()` (on the basic-latin range used by provider names):
lower-cases every character of the string. -/
def strLower (s : String) : String :=
  ⟨s.data.map Char.toLower⟩

/-- The static `MODEL_PROVIDERS` table. -/
def modelProviders : List (String × String) :=
  [("gpt-4", "openai"),
   ("gpt-4o", "openai"),
   ("gpt-4o-mini", "openai"),
   ("gpt-4-turbo", "openai"),
   ("gpt-3.5-turbo", "openai"),
   ("claude-3-5-sonnet", "bedrock"),
   ("claude-3-5-haiku", "bedrock"),
   ("claude-3-opus", "bedrock"),
   ("claude-3-sonnet", "bedrock"),
   ("claude-3-haiku", "bedrock"),
   ("claude-3-5-sonnet-direct", "anthropic"),
   ("claude-3-5-haiku-direct", "anthropic"),
   ("us.anthropic.claude-3-5-sonnet-20241022-v2:0", "bedrock"),
   ("us.anthropic.claude-3-5-haiku-20241022-v1:0", "bedrock")]

/-- `get_provider_for_model`: the `LLM_PROVIDER` override (lower-cased) wins
when truthy; then the static table; then the credential-based fallback in the
order OpenAI, Bedrock/AWS, Anthropic; otherwise a `ValueError`. -/
def getProviderForModel (env : EnvConfig) (model : String) :
    Except String String :=
  if truthy env.llmProvider then .ok (strLower (env.llmProvider.getD ""))
  else
    match modelProviders.find? (fun q => q.1 == model) with
    | some p => .ok p.2
    | none =>
        if truthy env.openaiApiKey then .ok "openai"
        else if truthy env.bedrockApiKey || truthy env.awsApiKey then
          .ok "bedrock"
        else if truthy env.anthropicApiKey then .ok "anthropic"
        else .error ("Cannot determine provider for model '" ++ model ++
          "'. Set LLM_PROVIDER env var or configure API keys.")

/-- C4: resolution tries the environment override, then the static table,
then the credential fallback, and fails with a configuration error when none
resolve; with override `"openai"` and model `"claude-3-5-sonnet"` it returns
`"openai"` even though the static table maps the model to `"bedrock"`. -/
theorem provider_resolution_order :
    (∀ env model, truthy env.llmProvider = true →
      getProviderForModel env model =
        Except.ok (strLower (env.llmProvider.getD "")))
    ∧ (∀ env model p, truthy env.llmProvider = false →
        modelProviders.find? (fun q => q.1 == model) = some p →
        getProviderForModel env model = Except.ok p.2)
    ∧ (∀ env model, truthy env.llmProvider = false →
        modelProviders.find? (fun q => q.1 == model) = none →
        truthy env.openaiApiKey = true →
        getProviderForModel env model = Except.ok "openai")
    ∧ (∀ env model, truthy env.llmProvider = false →
        modelProviders.find? (fun q => q.1 == model) = none →
        truthy env.openaiApiKey = false →
        (truthy env.bedrockApiKey || truthy env.awsApiKey) = true →
        getProviderForModel env model = Except.ok "bedrock")
    ∧ (∀ env model, truthy env.llmProvider = false →
        modelProviders.find? (fun q => q.1 == model) = none →
        truthy env.openaiApiKey = false →
        (truthy env.bedrockApiKey || truthy env.awsApiKey) = false →
        truthy env.anthropicApiKey = true →
        getProviderForModel env model = Except.ok "anthropic")
    ∧ (∀ env model, truthy env.llmProvider = false →
        modelProviders.find? (fun q => q.1 == model) = none →
        truthy env.openaiApiKey = false →
        (truthy env.bedrockApiKey || truthy env.awsApiKey) = false →
        truthy env.anthropicApiKey = false →
        getProviderForModel env model =
          Except.error ("Cannot determine provider for model '" ++ model ++
            "'. Set LLM_PROVIDER env var or configure API keys."))
    ∧ (getProviderForModel
        { llmProvider := some "openai", openaiApiKey := none,
          bedrockApiKey := none, awsApiKey := none, anthropicApiKey := none }
        "claude-3-5-sonnet" = Except.ok "openai"
      ∧ modelProviders.find? (fun q => q.1 == "claude-3-5-sonnet") =
          some ("claude-3-5-sonnet", "bedrock")
      ∧ "bedrock" ≠ "openai") := by
  refine ⟨?_, ?_, ?_, ?_, ?_, ?_, by rfl, by rfl, by decide⟩
  · intro env model h
    unfold getProviderForModel
    rw [if_pos h]
  · intro env model p h hfind
    unfold getProviderForModel
    rw [if_neg (by simp [h]), hfind]
  · intro env model h hfind hopenai
    unfold getProviderForModel
    rw [if_neg (by simp [h]), hfind]
    simp [hopenai]
  · intro env model h hfind hopenai hbed
    unfold getProviderForModel
    rw [if_neg (by simp [h]), hfind]
    simp [hopenai, hbed]
  · intro env model h hfind hopenai hbed hanth
    unfold getProviderForModel
    rw [if_neg (by simp [h]), hfind]
    simp [hopenai, hbed, hanth]
  · intro env model h hfind hopenai hbed hanth
    unfold getProviderForModel
    rw [if_neg (by simp [h]), hfind]
    simp [hopenai, hbed, hanth]

theorem provider_resolution_order_witness :
    getProviderForModel
        { llmProvider := some "OpenAI", openaiApiKey := none,
          bedrockApiKey := none, awsApiKey := none, anthropicApiKey := none }
        "claude-3-5-sonnet" =
      Except.ok (strLower ((some "OpenAI").getD "")) ∧
    getProviderForModel
        { llmProvider := none, openaiApiKey := none,
          bedrockApiKey := none, awsApiKey := none, anthropicApiKey := none }
        "zzz-unknown" =
      Except.error ("Cannot determine provider for model '" ++ "zzz-unknown" ++
        "'. Set LLM_PROVIDER env var or configure API keys.") :=
  ⟨provider_resolution_order.1
      { llmProvider := some "OpenAI", openaiApiKey := none,
        bedrockApiKey := none, awsApiKey := none, anthropicApiKey := none }
      "claude-3-5-sonnet" (by decide),
   (provider_resolution_order.2.2.2.2.2.1)
      { llmProvider := none, openaiApiKey := none,
        bedrockApiKey := none, awsApiKey := none, anthropicApiKey := none }
      "zzz-unknown" (by decide) (by decide) (by decide) (by decide)
      (by decide)⟩

/-! ## Scheduler (`src/pepper/agent/scheduler.py`) -/

/-- The body of the `while` loop in `SchedulerAgent.get_batch_events`: keep
dequeueing while the queue is non-empty and fewer than `max_batch_size`
events have been collected.  Returns the batch and the remaining queue. -/
def getBatchAux (maxB : Nat) : List Event → List Event → List Event × List Event
  | [], acc => (acc, [])
  | e :: rest, acc =>
      if acc.length < maxB then getBatchAux maxB rest (acc ++ [e])
      else (acc, e :: rest)

/-- `SchedulerAgent.get_batch_events`: the first `await get()` blocks while
the queue is empty (modelled as `none`); once one event is obtained the drain
loop only dequeues under a non-empty check, so it never blocks again. -/
def getBatchEvents (maxB : Nat) : List Event → Option (List Event × List Event)
  | [] => none
  | e :: rest => some (getBatchAux maxB rest [e])

theorem getBatchAux_spec (maxB : Nat) (q : List Event) :
    ∀ (acc : List Event), acc.length ≤ maxB →
      (getBatchAux maxB q acc).1.length ≤ maxB ∧
      acc.length ≤ (getBatchAux maxB q acc).1.length ∧
      (getBatchAux maxB q acc).1 ++ (getBatchAux maxB q acc).2 = acc ++ q := by
  induction q with
  | nil => intro acc h; simp [getBatchAux, h]
  | cons e rest ih =>
      intro acc h
      by_cases hlt : acc.length < maxB
      · have := ih (acc ++ [e]) (by simp; omega)
        simp only [getBatchAux, if_pos hlt]
        refine ⟨this.1, ?_, by rw [this.2.2]; simp⟩
        have := this.2.1
        simp at this
        omega
      · simp [getBatchAux, if_neg hlt]
        omega

/-- C8: on a non-empty queue with `max_batch_size ≥ 1`, `get_batch_events`
returns between 1 and `max_batch_size` events, which form a prefix of the
queue in arrival (FIFO) order; it would block (`none`) only on an empty
queue, before the first event. -/
theorem get_batch_events_bounds :
    ∀ (q : List Event) (maxB : Nat), q ≠ [] → 1 ≤ maxB →
      ∃ batch rest, getBatchEvents maxB q = some (batch, rest) ∧
        1 ≤ batch.length ∧ batch.length ≤ maxB ∧ batch ++ rest = q := by
  intro q maxB hq hmax
  match q with
  | [] => exact absurd rfl hq
  | e :: rest =>
      have h := getBatchAux_spec maxB rest [e] (by simpa using hmax)
      exact ⟨(getBatchAux maxB rest [e]).1, (getBatchAux maxB rest [e]).2,
        rfl, by simpa using h.2.1, h.1, by simpa using h.2.2⟩

theorem get_batch_events_bounds_witness :
    ∃ batch rest,
      getBatchEvents 2
          [Event.userMessage "a", Event.userMessage "b", Event.userMessage "c"] =
        some (batch, rest) ∧
      1 ≤ batch.length ∧ batch.length ≤ 2 ∧
      batch ++ rest =
        [Event.userMessage "a", Event.userMessage "b", Event.userMessage "c"] :=
  get_batch_events_bounds
    [Event.userMessage "a", Event.userMessage "b", Event.userMessage "c"] 2
    (by decide) (by decide)

/-- Phase 4 of `SchedulerAgent.step`, per requested tool call: the reserved
`"wait"` function is recorded as a `Wait` event (with the parsed optional
reason, defaulting to `""`) and not dispatched; any other call is recorded in
memory and pushed onto the tool work queue. -/
def phase4Step (summ : List Event → Option String → String)
    (jsonReason : String → Option String) (t : Nat)
    (p : TrackerState × List ToolCall) (tc : ToolCall) :
    TrackerState × List ToolCall :=
  if tc.name = "wait" then
    (addEvent summ t p.1 (.waitEv ((jsonReason tc.arguments).getD "")), p.2)
  else
    (addEvent summ t p.1 (.toolCallEv tc), p.2 ++ [tc])

/-- `SchedulerAgent.step`, phases 2–4, given the drained batch and the
completion reply.  `jsonReason` models `json.loads(fn_args).get("reason")`
(returning `none` on parse failure or a missing key).  Returns the new
tracker state, the new tool work queue, and the contents published to the
user-facing sink. -/
def schedStep (summ : List Event → Option String → String)
    (jsonReason : String → Option String) (t : Nat)
    (st : TrackerState) (queue : List ToolCall) (batch : List Event)
    (response : AssistantMsg) :
    TrackerState × List ToolCall × List String :=
  let st1 := batch.foldl (fun s e => addEvent summ t s e) st
  let p3 : TrackerState × List String :=
    match response.content with
    | some c =>
        if c = "" then (st1, [])
        else (addEvent summ t st1 (.assistant { content := some c }), [c])
    | none => (st1, [])
  let p4 := (response.toolCalls.getD []).foldl
    (phase4Step summ jsonReason t) (p3.1, queue)
  (p4.1, p4.2, p3.2)

theorem phase4_queue (summ : List Event → Option String → String)
    (jsonReason : String → Option String) (t : Nat) (tcs : List ToolCall) :
    ∀ (st : TrackerState) (queue : List ToolCall),
      (tcs.foldl (phase4Step summ jsonReason t) (st, queue)).2 =
        queue ++ tcs.filter (fun tc => tc.name != "wait") := by
  induction tcs with
  | nil => intro st queue; simp
  | cons tc rest ih =>
      intro st queue
      by_cases hw : tc.name = "wait"
      · simp [phase4Step, hw, ih]
      · simp [phase4Step, hw, ih]

theorem phase4_events (summ : List Event → Option String → String)
    (jsonReason : String → Option String) (t : Nat) (tcs : List ToolCall) :
    ∀ (st : TrackerState) (queue : List ToolCall),
      st.events.length + tcs.length ≤ lenLimit →
      ((tcs.foldl (phase4Step summ jsonReason t) (st, queue)).1).events =
        st.events ++ tcs.map (fun tc =>
          if tc.name = "wait" then
            Event.waitEv ((jsonReason tc.arguments).getD "")
          else Event.toolCallEv tc) := by
  induction tcs with
  | nil => intro st queue _; simp
  | cons tc rest ih =>
      intro st queue hlen
      have hsmall : ∀ e, (addEvent summ t st e).events = st.events ++ [e] := by
        intro e
        rw [addEvent_events]
        rw [if_neg]
        simp only [List.length_append, List.length_cons, List.length_nil]
        simp only [List.length_cons] at hlen
        omega
      by_cases hw : tc.name = "wait" <;>
        · simp only [List.foldl_cons, phase4Step, hw, if_pos, if_neg,
            reduceIte]
          rw [ih _ _ (by rw [hsmall]; simp; simp at hlen; omega)]
          rw [hsmall]
          simp [hw]

/-- C9: a completion reply consisting of exactly one tool call named
`"wait"` whose arguments parse to reason `"pending"` makes the step record a
`Wait{content:"pending"}` in memory, publish nothing, and leave the tool
work queue unchanged (the wait call is never enqueued); in general the new
tool work queue is the old queue extended with exactly the non-`"wait"`
requested calls in order, and (absent compaction) each of those calls is
recorded in memory as a `ToolCall` event. -/
theorem scheduler_wait_step (summ : List Event → Option String → String)
    (jsonReason : String → Option String) (t : Nat) (st : TrackerState)
    (queue : List ToolCall) (batch : List Event) (cid args : String) :
    (jsonReason args = some "pending" →
      schedStep summ jsonReason t st queue batch
          { content := none,
            toolCalls := some [{ id := cid, name := "wait", arguments := args }] } =
        (addEvent summ t (batch.foldl (fun s e => addEvent summ t s e) st)
          (.waitEv "pending"), queue, []))
    ∧ (∀ (response : AssistantMsg),
        (schedStep summ jsonReason t st queue batch response).2.1 =
          queue ++ (response.toolCalls.getD []).filter
            (fun tc => tc.name != "wait"))
    ∧ (∀ (st0 : TrackerState) (tcs : List ToolCall),
        st0.events.length + tcs.length ≤ lenLimit →
        ((tcs.foldl (phase4Step summ jsonReason t) (st0, queue)).1).events =
          st0.events ++ tcs.map (fun tc =>
            if tc.name = "wait" then
              Event.waitEv ((jsonReason tc.arguments).getD "")
            else Event.toolCallEv tc)) := by
  refine ⟨?_, ?_, ?_⟩
  · intro h
    simp [schedStep, phase4Step, h]
  · intro response
    simp [schedStep, phase4_queue]
  · intro st0 tcs hlen
    exact phase4_events summ jsonReason t tcs st0 queue hlen

theorem scheduler_wait_step_witness :
    schedStep (fun _ _ => "S")
        (fun s => if s = "\x7b\"reason\": \"pending\"\x7d" then some "pending"
                  else none)
        0 (initTracker (some "memory-scheduler")) [] []
        { content := none,
          toolCalls :=
            some [⟨"c1", "wait", "\x7b\"reason\": \"pending\"\x7d"⟩] } =
      (addEvent (fun _ _ => "S") 0
        (([] : List Event).foldl
          (fun s e => addEvent (fun _ _ => "S") 0 s e)
          (initTracker (some "memory-scheduler")))
        (.waitEv "pending"), [], []) :=
  (scheduler_wait_step (fun _ _ => "S")
      (fun s => if s = "\x7b\"reason\": \"pending\"\x7d" then some "pending"
                else none)
      0 (initTracker (some "memory-scheduler")) [] [] "c1"
      "\x7b\"reason\": \"pending\"\x7d").1 (by simp)

/-! ## Bounded worker loop (`src/pepper/agent/worker.py`)

The provider (`create_completion`) is modelled as a script mapping the step
index to the assistant reply; tool dispatch (`call_openai_tool`) as a
function from the call to its result string; `json.loads(fn_args)` in the
final-answer branch as `jsonParse`, classifying its outcome the way the
following `(payload or {}).get("answer", "")` — which sits outside the
`try` — treats it; history retrieval as finding no stored record (a fresh
conversation). -/

/-- The scan over `assistant_msg.tool_calls` for the reserved
`return_final_answer` function (first match, as the `break` does). -/
def findFinal (tcs : List ToolCall) : Option ToolCall :=
  tcs.find? (fun c => c.name == "return_final_answer")

/-- The outcome of `json.loads(fn_args)` in the final-answer branch of
`WorkerAgent.call`, classified by how `(payload or {}).get("answer", "")`
treats the payload: the load raising (caught, payload `{}`); a dict, whose
(string) `"answer"` value is carried when present; a truthy non-dict such as
`[1]` or `"x"` (on which `.get` raises `AttributeError`, since that line is
outside the `try`); a falsy non-dict such as `null`, `0`, `[]` or `""`
(replaced by `{}` by `payload or {}`). -/
inductive ParsedArgs where
  | raises
  | dict (answer : Option String)
  | truthyNonDict
  | falsyNonDict
deriving DecidableEq, Repr

/-- The answer extraction for a `return_final_answer` call in
`WorkerAgent.call`: a dict payload yields its `"answer"` field, with a
missing or empty field falling back to the raw arguments string, as do a
failed load and a falsy non-dict payload; a truthy non-dict payload raises
`AttributeError` (the `.get` call is outside the `try`). -/
def finalAnswer (jsonParse : String → ParsedArgs) (args : String) :
    Except String String :=
  match jsonParse args with
  | .raises => .ok args
  | .falsyNonDict => .ok args
  | .dict a =>
      let ans := a.getD ""
      .ok (if ans = "" then args else ans)
  | .truthyNonDict => .error "AttributeError"

/-- `msg["role"]` of a wire message (`none` for the bare function-call dict,
which has no `"role"` key). -/
def wireRole : WireMsg → Option String
  | .assistantW _ _ => some "assistant"
  | .userW _ => some "user"
  | .toolW _ _ => some "tool"
  | .funcW _ => none

/-- The step-exhaustion fallback at the end of `WorkerAgent.call`: scan
`reversed(state_tracker.messages)` for the first `"assistant"`-role message
and return its content, with `None` (and a missing message) degrading to
`""` via `last_assistant or ""`. -/
def fallbackAnswer (ms : List WireMsg) : String :=
  match ms.reverse.find? (fun m => wireRole m == some "assistant") with
  | some (.assistantW c _) => c.getD ""
  | _ => ""

/-- Whether a canonical event is an assistant message. -/
def Event.isAssistant : Event → Bool
  | .assistant _ => true
  | _ => false

/-- The content of the most recent assistant message of the log (empty when
that message has no content, or when no assistant message exists). -/
def lastAssistantContent (evs : List Event) : String :=
  match evs.reverse.find? Event.isAssistant with
  | some (.assistant m) => m.content.getD ""
  | _ => ""

/-- `Event.assistant`-messages interpreted the way the claim's words read:
the most recent non-empty assistant text produced, if any. -/
def claimLastAssistantText (evs : List Event) : Option String :=
  evs.reverse.findSome? (fun e =>
    match e with
    | .assistant m =>
        match m.content with
        | some c => if c = "" then none else some c
        | none => none
    | _ => none)

/-- The outcome of one `WorkerAgent.call` run: the returned answer, whether
it was produced by the reserved final-answer call (vs the step-ceiling
fallback), the final tracker state, the number of provider calls made, and
every tool call dispatched through the tool manager. -/
structure WorkerRun where
  answer : String
  viaFinal : Bool
  tracker : TrackerState
  providerCalls : Nat
  dispatched : List ToolCall
deriving DecidableEq, Repr

/-- `WorkerAgent.max_steps`. -/
def maxSteps : Nat := 10

/-- The `while steps < self.max_steps` loop of `WorkerAgent.call`.  Each
step renders `state_tracker.messages` (propagating its `ValueError` as
`Except.error`), consults the scripted provider, and either short-circuits
on a `return_final_answer` call (keeping only that call in the appended
assistant message, then — unless the answer extraction raises, which
propagates after the assistant message was appended but before the synthetic
result and the flush — recording a synthetic `"SEND SUCCESSFULLY"` result,
flushing memory, and returning the extracted answer) or appends the reply,
dispatches every requested tool call and appends their results, and
continues.  On fuel exhaustion it returns the fallback answer. -/
def workerLoop (script : Nat → AssistantMsg) (dispatch : ToolCall → String)
    (jsonParse : String → ParsedArgs)
    (summ : List Event → Option String → String) :
    Nat → Nat → TrackerState → Nat → Nat → List ToolCall →
    Except String WorkerRun
  | 0, _, st, _, pc, dl =>
      match messagesOf st.events with
      | .error m => .error m
      | .ok ms => .ok ⟨fallbackAnswer ms, false, st, pc, dl⟩
  | r + 1, i, st, t, pc, dl =>
      match messagesOf st.events with
      | .error m => .error m
      | .ok _ =>
          let reply := script i
          match findFinal (reply.toolCalls.getD []) with
          | some tc =>
              let st1 := addEvent summ t st
                (.assistant { content := reply.content, toolCalls := some [tc] })
              match finalAnswer jsonParse tc.arguments with
              | .error m => .error m
              | .ok answer =>
                  let st2 := addEvent summ (t + 1) st1
                    (.toolCallResult tc.id (some tc.name) "SEND SUCCESSFULLY")
                  let st3 := storeEvents (t + 2) st2
                  .ok ⟨answer, true, st3, pc + 1, dl⟩
          | none =>
              let st1 := addEvent summ t st (.assistant reply)
              let tcs := reply.toolCalls.getD []
              let st2 := tcs.foldl
                (fun s tc => addEvent summ t s
                  (.toolCallResult tc.id (some tc.name) (dispatch tc))) st1
              workerLoop script dispatch jsonParse summ r (i + 1) st2
                (t + 2) (pc + 1) (dl ++ tcs)

/-- `WorkerAgent.call` on a fresh conversation (the store holds no record
for the namespace): build the tracker (`"memory-" + agent_name` when an
agent name is given), append the request as a `UserMessage` with the
current-time suffix, and run the bounded loop. -/
def workerCall (script : Nat → AssistantMsg) (dispatch : ToolCall → String)
    (jsonParse : String → ParsedArgs)
    (summ : List Event → Option String → String)
    (agentName : Option String) (request timeStr : String) :
    Except String WorkerRun :=
  let st0 := initTracker (agentName.map (fun n => "memory-" ++ n))
  let st1 := addEvent summ 0 st0
    (.userMessage (request ++ "\n\nCurrent time: " ++ timeStr ++
      " at UTC timezone"))
  workerLoop script dispatch jsonParse summ maxSteps 0 st1 1 0 []

/-- A scripted provider whose step-1 reply carries a `return_final_answer`
call whose arguments are the JSON text `[1]`. -/
def finalListArgsScript : Nat → AssistantMsg :=
  fun _ => ⟨some "done", some [⟨"f1", "return_final_answer", "[1]"⟩], none⟩

/-- `json.loads` on the arguments of `finalListArgsScript`: `"[1]"` parses
to the truthy non-dict `[1]`; everything else is treated as unparseable. -/
def listArgsParse : String → ParsedArgs :=
  fun s => if s = "[1]" then .truthyNonDict else .raises

/-- C5 counterexample: a step-1 reply containing the reserved final-answer
call whose arguments are `"[1]"` makes `WorkerAgent.call` raise an
`AttributeError` — `json.loads` yields the truthy non-dict `[1]` and the
`.get` on it sits outside the `try` — instead of returning the answer,
recording the synthetic success result, or flushing memory. -/
theorem worker_final_answer_raises_counterexample :
    findFinal ((finalListArgsScript 0).toolCalls.getD []) =
      some ⟨"f1", "return_final_answer", "[1]"⟩ ∧
    workerCall finalListArgsScript (fun _ => "") listArgsParse
        (fun _ _ => "S") (some "w") "r" "T" =
      Except.error "AttributeError" := by
  exact ⟨by rfl, by rfl⟩

/-- C5 amended: when the provider's step-1 reply contains the reserved
`return_final_answer` tool call, the loop makes exactly one provider call
and dispatches no other tool, and the appended assistant message keeps only
the final-answer call (the others are short-circuited).  If the call's
arguments load to a dict, fail to load, or load to a falsy value, the loop
records a synthetic `"SEND SUCCESSFULLY"` result, flushes memory (one store
record, when a namespace is configured) and returns the extracted answer
immediately; but if they load to a truthy non-dict value, the loop raises
an `AttributeError` after appending the assistant message, recording no
result, flushing nothing and returning no answer. -/
theorem worker_final_answer_short_circuit (script : Nat → AssistantMsg)
    (dispatch : ToolCall → String) (jsonParse : String → ParsedArgs)
    (summ : List Event → Option String → String) (agentName : Option String)
    (request timeStr : String) (tc : ToolCall)
    (h : findFinal ((script 0).toolCalls.getD []) = some tc) :
    (∀ a, finalAnswer jsonParse tc.arguments = Except.ok a →
      workerCall script dispatch jsonParse summ agentName request timeStr =
        Except.ok
          { answer := a,
            viaFinal := true,
            tracker :=
              { nspace := agentName.map (fun n => "memory-" ++ n),
                events :=
                  [Event.userMessage (request ++ "\n\nCurrent time: " ++
                      timeStr ++ " at UTC timezone"),
                   Event.assistant ⟨(script 0).content, some [tc], none⟩,
                   Event.toolCallResult tc.id (some tc.name)
                     "SEND SUCCESSFULLY"],
                summary := none,
                recentMessages := [],
                autoStoreCounter := 3,
                storeLog :=
                  match agentName with
                  | some n =>
                      [{ contextId := "memory-" ++ n ++ "_" ++ toString 3,
                         events :=
                           [Event.userMessage (request ++
                               "\n\nCurrent time: " ++ timeStr ++
                               " at UTC timezone"),
                            Event.assistant ⟨(script 0).content, some [tc], none⟩,
                            Event.toolCallResult tc.id (some tc.name)
                              "SEND SUCCESSFULLY"],
                         summary := none, nspace := "memory-" ++ n,
                         contextType := "AgentState" }]
                  | none => [] },
            providerCalls := 1,
            dispatched := [] })
    ∧ (jsonParse tc.arguments = ParsedArgs.truthyNonDict →
      workerCall script dispatch jsonParse summ agentName request timeStr =
        Except.error "AttributeError") := by
  constructor
  · intro a ha
    unfold workerCall
    rw [show maxSteps = 9 + 1 from rfl]
    cases agentName <;>
      simp [workerLoop, addEvent, storeEvents, initTracker, messagesOf,
        toOpenaiFormat, autoStoreEveryN, lenLimit, summarizeLastN, h, ha]
  · intro hp
    have ha : finalAnswer jsonParse tc.arguments =
        Except.error "AttributeError" := by
      simp [finalAnswer, hp]
    unfold workerCall
    rw [show maxSteps = 9 + 1 from rfl]
    cases agentName <;>
      simp [workerLoop, addEvent, storeEvents, initTracker, messagesOf,
        toOpenaiFormat, autoStoreEveryN, lenLimit, summarizeLastN, h, ha]

/-- A scripted provider whose step-1 reply carries a `return_final_answer`
call with a well-formed `{"answer": "42"}` argument payload. -/
def finalDictArgsScript : Nat → AssistantMsg :=
  fun _ =>
    ⟨some "done",
     some [⟨"f1", "return_final_answer", "\x7b\"answer\": \"42\"\x7d"⟩],
     none⟩

/-- `json.loads` on the arguments of `finalDictArgsScript`: the payload is a
dict whose `"answer"` field is `"42"`; everything else fails to load. -/
def dictArgsParse : String → ParsedArgs :=
  fun s => if s = "\x7b\"answer\": \"42\"\x7d" then .dict (some "42")
           else .raises

theorem worker_final_answer_short_circuit_witness :
    workerCall finalDictArgsScript (fun _ => "") dictArgsParse
        (fun _ _ => "S") (some "w") "r" "T" =
      Except.ok
        { answer := "42",
          viaFinal := true,
          tracker :=
            { nspace := (some "w").map (fun n => "memory-" ++ n),
              events :=
                [Event.userMessage ("r" ++ "\n\nCurrent time: " ++ "T" ++
                    " at UTC timezone"),
                 Event.assistant ⟨some "done", some [⟨"f1", "return_final_answer", "\x7b\"answer\": \"42\"\x7d"⟩], none⟩,
                 Event.toolCallResult "f1" (some "return_final_answer")
                   "SEND SUCCESSFULLY"],
              summary := none,
              recentMessages := [],
              autoStoreCounter := 3,
              storeLog :=
                [{ contextId := "memory-" ++ "w" ++ "_" ++ toString 3,
                   events :=
                     [Event.userMessage ("r" ++ "\n\nCurrent time: " ++
                         "T" ++ " at UTC timezone"),
                      Event.assistant ⟨some "done", some [⟨"f1", "return_final_answer", "\x7b\"answer\": \"42\"\x7d"⟩], none⟩,
                      Event.toolCallResult "f1" (some "return_final_answer")
                        "SEND SUCCESSFULLY"],
                   summary := none, nspace := "memory-" ++ "w",
                   contextType := "AgentState" }] },
          providerCalls := 1,
          dispatched := [] } ∧
    workerCall finalListArgsScript (fun _ => "") listArgsParse
        (fun _ _ => "S") (some "w") "r" "T" =
      Except.error "AttributeError" :=
  ⟨(worker_final_answer_short_circuit finalDictArgsScript (fun _ => "")
      dictArgsParse (fun _ _ => "S") (some "w") "r" "T"
      ⟨"f1", "return_final_answer", "\x7b\"answer\": \"42\"\x7d"⟩
      (by rfl)).1 "42" (by rfl),
   (worker_final_answer_short_circuit finalListArgsScript (fun _ => "")
      listArgsParse (fun _ _ => "S") (some "w") "r" "T"
      ⟨"f1", "return_final_answer", "[1]"⟩ (by rfl)).2 (by rfl)⟩

/-- The total companion of `toOpenaiFormat`, used only in proofs: it agrees
with it on every renderable event. -/
def wireTotal : Event → WireMsg
  | .assistant m =>
      .assistantW m.content
        (match m.toolCalls with
         | some l => if l.isEmpty then none else some (l.map fnCallWire)
         | none => none)
  | .userMessage c => .userW c
  | .toolCallEv tc => .funcW (fnCallWire tc)
  | .toolCallResult i _ r => .toolW i r
  | .genericEvent _ _ => .userW ""
  | .sendToUser _ => .userW ""
  | .waitEv _ => .userW ""

theorem messagesOf_eq_map (evs : List Event)
    (h : ∀ e ∈ evs, e.wireOk = true) :
    messagesOf evs = .ok (evs.map wireTotal) := by
  induction evs with
  | nil => rfl
  | cons e rest ih =>
      have he := h e (by simp)
      have hrest := ih (fun x hx => h x (by simp [hx]))
      cases e <;> simp_all [messagesOf, toOpenaiFormat, wireTotal,
        Event.wireOk]

theorem wireRole_wireTotal (e : Event) :
    ((fun m => wireRole m == some "assistant") (wireTotal e)) =
      e.isAssistant := by
  cases e <;> rfl

theorem fallback_map (evs : List Event) :
    fallbackAnswer (evs.map wireTotal) = lastAssistantContent evs := by
  unfold fallbackAnswer lastAssistantContent
  rw [← List.map_reverse, List.find?_map]
  have hpred : ((fun m => wireRole m == some "assistant") ∘ wireTotal) =
      Event.isAssistant := by
    funext e; exact wireRole_wireTotal e
  rw [hpred]
  cases hf : evs.reverse.find? Event.isAssistant with
  | none => rfl
  | some e =>
      have := List.find?_some hf
      cases e <;> simp_all [Event.isAssistant, wireTotal]

theorem addEvent_wireOk (summ : List Event → Option String → String)
    (t : Nat) (s : TrackerState) (e : Event)
    (hs : ∀ x ∈ s.events, x.wireOk = true) (he : e.wireOk = true) :
    ∀ x ∈ (addEvent summ t s e).events, x.wireOk = true := by
  intro x hx
  rw [addEvent_events] at hx
  have hx' : x ∈ s.events ++ [e] := by
    split at hx
    · exact List.mem_of_mem_drop hx
    · exact hx
  rcases List.mem_append.mp hx' with h1 | h1
  · exact hs x h1
  · simp at h1; subst h1; exact he

theorem foldl_results_wireOk (summ : List Event → Option String → String)
    (t : Nat) (dispatch : ToolCall → String) (tcs : List ToolCall) :
    ∀ (s : TrackerState), (∀ x ∈ s.events, x.wireOk = true) →
      ∀ x ∈ (tcs.foldl
        (fun s tc => addEvent summ t s
          (.toolCallResult tc.id (some tc.name) (dispatch tc))) s).events,
        x.wireOk = true := by
  induction tcs with
  | nil => intro s hs; exact hs
  | cons tc rest ih =>
      intro s hs
      exact ih _ (addEvent_wireOk summ t s _ hs rfl)

theorem workerLoop_exhaust (script : Nat → AssistantMsg)
    (dispatch : ToolCall → String) (jsonParse : String → ParsedArgs)
    (summ : List Event → Option String → String)
    (hscript : ∀ j, findFinal ((script j).toolCalls.getD []) = none) :
    ∀ (r i : Nat) (st : TrackerState) (t pc : Nat) (dl : List ToolCall),
      (∀ e ∈ st.events, e.wireOk = true) →
      ∃ run,
        workerLoop script dispatch jsonParse summ r i st t pc dl =
          .ok run ∧
        run.viaFinal = false ∧
        run.answer = lastAssistantContent run.tracker.events ∧
        (∀ e ∈ run.tracker.events, e.wireOk = true) := by
  intro r
  induction r with
  | zero =>
      intro i st t pc dl hgood
      have hm := messagesOf_eq_map st.events hgood
      refine ⟨⟨fallbackAnswer (st.events.map wireTotal), false, st, pc, dl⟩,
        ?_, rfl, ?_, hgood⟩
      · simp [workerLoop, hm]
      · exact fallback_map st.events
  | succ r ih =>
      intro i st t pc dl hgood
      have hm := messagesOf_eq_map st.events hgood
      have hfin := hscript i
      have hgood1 : ∀ e ∈ (addEvent summ t st (.assistant (script i))).events,
          e.wireOk = true :=
        addEvent_wireOk summ t st _ hgood rfl
      have hgood2 := foldl_results_wireOk summ t dispatch
        ((script i).toolCalls.getD []) _ hgood1
      obtain ⟨run, hrun, h1, h2, h3⟩ :=
        ih (i + 1) _ (t + 2) (pc + 1) (dl ++ (script i).toolCalls.getD [])
          hgood2
      refine ⟨run, ?_, h1, h2, h3⟩
      simp only [workerLoop, hm, hfin]
      exact hrun

/-- The scripted provider of the C7 counterexample: assistant text `"A"` on
step 1, then tool-call-only replies with no content for the remaining
steps. -/
def fallbackScript : Nat → AssistantMsg :=
  fun i => if i = 0 then ⟨some "A", none, none⟩
           else ⟨none, some [⟨"c1", "t1", ""⟩], none⟩

/-- C7 counterexample: under `fallbackScript` the run reaches the step
ceiling; the last assistant text produced during the run is `"A"`, but the
loop returns `""` because the most recent assistant message (a
tool-call-only reply) has no content — refuting "returns the last assistant
text produced during the run, or an empty string if no assistant text
exists". -/
theorem worker_fallback_counterexample :
    (workerCall fallbackScript (fun _ => "r") (fun _ => ParsedArgs.raises)
        (fun _ _ => "S") none "req" "tm").map
      (fun run => (run.viaFinal, run.answer,
        claimLastAssistantText run.tracker.events)) =
      Except.ok (false, "", some "A")
    ∧ ("" : String) ≠ "A" := by
  exact ⟨by rfl, by decide⟩

/-- C7 amended: if the loop reaches its step ceiling without a final-answer
tool call, it returns the content of the most recent assistant message in
memory — the empty string when that message has no content — or the empty
string if no assistant message exists. -/
theorem worker_step_ceiling_fallback (script : Nat → AssistantMsg)
    (dispatch : ToolCall → String) (jsonParse : String → ParsedArgs)
    (summ : List Event → Option String → String) (agentName : Option String)
    (request timeStr : String)
    (hscript : ∀ j, findFinal ((script j).toolCalls.getD []) = none) :
    ∃ run,
      workerCall script dispatch jsonParse summ agentName request timeStr =
        .ok run ∧
      run.viaFinal = false ∧
      run.answer = lastAssistantContent run.tracker.events := by
  have hgood1 : ∀ e ∈ (addEvent summ 0
      (initTracker (agentName.map (fun n => "memory-" ++ n)))
      (.userMessage (request ++ "\n\nCurrent time: " ++ timeStr ++
        " at UTC timezone"))).events, e.wireOk = true :=
    addEvent_wireOk summ 0 _ _ (by simp [initTracker]) rfl
  obtain ⟨run, hrun, h1, h2, _⟩ :=
    workerLoop_exhaust script dispatch jsonParse summ hscript maxSteps 0 _
      1 0 [] hgood1
  exact ⟨run, hrun, h1, h2⟩

theorem worker_step_ceiling_fallback_witness :
    ∃ run,
      workerCall (fun _ => ⟨some "B", none, none⟩) (fun _ => "")
          (fun _ => ParsedArgs.raises) (fun _ _ => "S") none "req" "tm" = .ok run ∧
      run.viaFinal = false ∧
      run.answer = lastAssistantContent run.tracker.events :=
  worker_step_ceiling_fallback (fun _ => ⟨some "B", none, none⟩)
    (fun _ => "") (fun _ => ParsedArgs.raises) (fun _ _ => "S") none "req" "tm"
    (fun _ => rfl)

end Pepper
